import Mathlib

/-!
Verification of `castella-skia-core`.

A shallow embedding, in Lean 4, of the pure logic of the `castella-skia-core`
rendering backend (files `font.rs`, `types.rs`, `painter.rs`, `surface.rs`,
`image.rs`), together with proofs of the behavioural properties stated in the
specification.

External capabilities of the underlying graphics engine (Skia font manager
lookups, GPU context construction, render-target wrapping, pixel readback,
image decoding, the file system) are modelled as explicit parameters
(`GpuEnv`, `ImgEnv`, typeface arguments), so every embedded operation is a
pure, executable Lean function of the program state and those oracles.

Strings handled byte-exactly (`parse_color`) are embedded as `List Char`
with an explicit UTF-8 byte-length model; text handed to the segmenter is
embedded as its list of Unicode code points (`List Nat`), matching Rust's
`str::chars` iteration. Machine floats (`f32`) appearing only in equality /
threshold comparisons are embedded as `ℚ`.
-/

set_option autoImplicit false

namespace Castella

/-! ## Font segmentation (`font.rs`)

Typefaces are opaque engine handles; we embed them as `Nat`. The outcomes of
the two external font-manager lookups that `segment_text_by_font` consults —
`get_emoji_typeface()` (a cached `Option<Typeface>`) and
`legacy_make_typeface` (the always-succeeding last-resort typeface, unwrapped
by the source) — are passed as explicit arguments `emojiTf : Option Nat` and
`legacyTf : Nat`. -/

/-- Embeds `is_likely_emoji` from `font.rs`: membership of a code point in the fixed
set of emoji ranges. -/
def is_likely_emoji (cp : Nat) : Bool :=
  (0x1F300 ≤ cp && cp ≤ 0x1F5FF) ||  -- Misc Symbols and Pictographs
  (0x1F600 ≤ cp && cp ≤ 0x1F64F) ||  -- Emoticons (faces)
  (0x1F680 ≤ cp && cp ≤ 0x1F6FF) ||  -- Transport and Map Symbols
  (0x1F700 ≤ cp && cp ≤ 0x1F77F) ||  -- Alchemical Symbols
  (0x1F780 ≤ cp && cp ≤ 0x1F7FF) ||  -- Geometric Shapes Extended
  (0x1F800 ≤ cp && cp ≤ 0x1F8FF) ||  -- Supplemental Arrows-C
  (0x1F900 ≤ cp && cp ≤ 0x1F9FF) ||  -- Supplemental Symbols and Pictographs
  (0x1FA00 ≤ cp && cp ≤ 0x1FA6F) ||  -- Chess Symbols
  (0x1FA70 ≤ cp && cp ≤ 0x1FAFF) ||  -- Symbols and Pictographs Extended-A
  (0x1F1E0 ≤ cp && cp ≤ 0x1F1FF)     -- Regional Indicator Symbols (Flags)

/-- Embeds `contains_emoji` from `font.rs`: `text.chars().any(is_likely_emoji)`. -/
def contains_emoji (text : List Nat) : Bool :=
  text.any is_likely_emoji

/-- Embeds `TextSegment` from `font.rs`: an owned substring (list of code points)
plus the typeface handle assigned to render it. -/
structure TextSegment where
  text : List Nat
  typeface : Nat
deriving DecidableEq

/-- The typeface the source assigns to a flushed run:
`if current_is_emoji { emoji_typeface.clone().unwrap_or(default) } else { default }`. -/
def run_typeface (emojiTf : Option Nat) (defaultTf : Nat) (isEmoji : Bool) : Nat :=
  if isEmoji then emojiTf.getD defaultTf else defaultTf

/-- The slow-path loop of `segment_text_by_font` (`font.rs`, lines 262-295):
state is the pending run `cur` and its classification `curEmoji`; a
classification change with a non-empty pending run flushes it; the trailing
run is flushed at end of input. -/
def segLoop (emojiTf : Option Nat) (defaultTf : Nat)
    (cur : List Nat) (curEmoji : Bool) : List Nat → List TextSegment
  | [] =>
    if cur.isEmpty then []
    else [⟨cur, run_typeface emojiTf defaultTf curEmoji⟩]
  | ch :: rest =>
    let e := is_likely_emoji ch
    if e != curEmoji && !cur.isEmpty then
      ⟨cur, run_typeface emojiTf defaultTf curEmoji⟩ ::
        segLoop emojiTf defaultTf [ch] e rest
    else
      segLoop emojiTf defaultTf (cur ++ [ch]) e rest

/-- Embeds `segment_text_by_font` from `font.rs`: empty text yields no segments; text
with no emoji yields a single segment with the primary (or legacy default)
typeface; otherwise the slow-path loop runs with an initially empty,
non-emoji pending run. -/
def segment_text_by_font (text : List Nat) (primary : Option Nat)
    (emojiTf : Option Nat) (legacyTf : Nat) : List TextSegment :=
  if text.isEmpty then []
  else if !contains_emoji text then
    [⟨text, primary.getD legacyTf⟩]
  else
    segLoop emojiTf (primary.getD legacyTf) [] false text

/-! ### Specification-side description of the slow path

The spec describes the slow path's *result*: the text split into maximal runs
of constant emoji-classification, each tagged with the typeface appropriate
to its class. `spec_runs` builds that run decomposition directly. -/

/-- Prepend the characters `cs` of classification `e` to a run decomposition,
merging with the first run when it has the same classification. -/
def addRun (e : Bool) (cs : List Nat) :
    List (Bool × List Nat) → List (Bool × List Nat)
  | [] => [(e, cs)]
  | (e2, r) :: rs => if e = e2 then (e, cs ++ r) :: rs else (e, cs) :: (e2, r) :: rs

/-- Maximal runs of constant `is_likely_emoji` classification, in order, each
paired with its classification. -/
def spec_runs : List Nat → List (Bool × List Nat)
  | [] => []
  | c :: rest => addRun (is_likely_emoji c) [c] (spec_runs rest)

/-- Tag every run of a run decomposition with its typeface. -/
def runSegments (emojiTf : Option Nat) (defaultTf : Nat)
    (runs : List (Bool × List Nat)) : List TextSegment :=
  runs.map fun p => ⟨p.2, run_typeface emojiTf defaultTf p.1⟩

/-- The slow path as the spec words it: split into maximal
constant-classification runs; emoji runs get the cached emoji typeface
(falling back to the default), non-emoji runs get the default typeface. -/
def slow_path_spec (emojiTf : Option Nat) (defaultTf : Nat)
    (text : List Nat) : List TextSegment :=
  runSegments emojiTf defaultTf (spec_runs text)

/-! ## Color parsing (`types.rs`)

`parse_color` works on the *bytes* of a Rust `&str`: `s.len()` is the UTF-8
byte length and `&s[0..2]` is a byte slice that panics when an index is not a
character boundary. We embed strings as `List Char` with an explicit UTF-8
byte-length model, and embed the possibly-panicking function as an
`Option`-valued one (`none` models a panic). -/

/-- Skia's `Color` (ARGB components, each a byte value). -/
structure SkColor where
  a : Nat
  r : Nat
  g : Nat
  b : Nat
deriving DecidableEq

/-- Embeds `skia_safe::Color::from_rgb`: alpha is fully opaque. -/
def SkColor.from_rgb (r g b : Nat) : SkColor := ⟨255, r, g, b⟩

/-- Embeds `skia_safe::Color::from_argb`. -/
def SkColor.from_argb (a r g b : Nat) : SkColor := ⟨a, r, g, b⟩

/-- Embeds `skia_safe::Color::BLACK`. -/
def SkColor.black : SkColor := ⟨255, 0, 0, 0⟩

/-- The value of an ASCII hexadecimal digit, `none` for any other char. -/
def hexDigitVal (c : Char) : Option Nat :=
  let n := c.toNat
  if 48 ≤ n && n ≤ 57 then some (n - 48)          -- 0-9
  else if 97 ≤ n && n ≤ 102 then some (n - 97 + 10)  -- a-f
  else if 65 ≤ n && n ≤ 70 then some (n - 65 + 10)   -- A-F
  else none

/-- One accumulation step of `u8::from_str_radix(_, 16)`: shift in a digit,
failing on a non-digit or on overflow past the `u8` range. -/
def hexAccStep (acc : Option Nat) (c : Char) : Option Nat :=
  match acc, hexDigitVal c with
  | some a, some d => if a * 16 + d ≤ 255 then some (a * 16 + d) else none
  | _, _ => none

/-- Embeds `u8::from_str_radix(s, 16)` on the characters of `s`: an optional leading
`'+'` sign, then a non-empty string of hex digits whose value fits in a byte
(`'-'` is rejected for an unsigned target). -/
def from_str_radix_u8 (s : List Char) : Option Nat :=
  let digits := match s with
    | '+' :: rest => rest
    | rest => rest
  if digits.isEmpty then none
  else digits.foldl hexAccStep (some 0)

/-- UTF-8 encoded size of one Unicode scalar value, Rust's `char::len_utf8`. -/
def charBytes (c : Char) : Nat :=
  if c.toNat < 0x80 then 1
  else if c.toNat < 0x800 then 2
  else if c.toNat < 0x10000 then 3
  else 4

/-- UTF-8 byte length of a string, as Rust's `str::len`. -/
def utf8Len (s : List Char) : Nat :=
  (s.map charBytes).sum

/-- Drop exactly `n` leading UTF-8 bytes from a string; `none` when `n`
overruns the string or falls inside a character (where Rust slicing panics). -/
def byteDrop : List Char → Nat → Option (List Char)
  | s, n =>
    if n = 0 then some s
    else match s with
      | [] => none
      | c :: rest =>
        if charBytes c ≤ n then byteDrop rest (n - charBytes c) else none

/-- Take exactly `n` leading UTF-8 bytes of a string; `none` when `n` overruns
the string or falls inside a character. -/
def byteTake : List Char → Nat → Option (List Char)
  | s, n =>
    if n = 0 then some []
    else match s with
      | [] => none
      | c :: rest =>
        if charBytes c ≤ n then
          (byteTake rest (n - charBytes c)).map (fun t => c :: t)
        else none

/-- Rust byte slicing `&s[a..b]` (with `a ≤ b`): `none` models the
out-of-bounds / non-boundary panic. -/
def byteSlice (s : List Char) (a b : Nat) : Option (List Char) :=
  (byteDrop s a).bind fun t => byteTake t (b - a)

/-- Embeds `parse_color` from `types.rs`: strip every leading `'#'`
(`trim_start_matches`), then dispatch on the UTF-8 byte length of the body;
6 bytes parse as `#RRGGBB` (alpha 255), 8 bytes as `#RRGGBBAA`, each
component's parse failure defaulting to 0 (alpha to 255); any other byte
length yields black. `none` models the byte-slicing panic on a
non-character-boundary index. -/
def parse_color (s : List Char) : Option SkColor :=
  let b := s.dropWhile (· == '#')
  if utf8Len b = 6 then
    (byteSlice b 0 2).bind fun s01 =>
    (byteSlice b 2 4).bind fun s23 =>
    (byteSlice b 4 6).bind fun s45 =>
    some (SkColor.from_rgb ((from_str_radix_u8 s01).getD 0)
      ((from_str_radix_u8 s23).getD 0) ((from_str_radix_u8 s45).getD 0))
  else if utf8Len b = 8 then
    (byteSlice b 0 2).bind fun s01 =>
    (byteSlice b 2 4).bind fun s23 =>
    (byteSlice b 4 6).bind fun s45 =>
    (byteSlice b 6 8).bind fun s67 =>
    some (SkColor.from_argb ((from_str_radix_u8 s67).getD 255)
      ((from_str_radix_u8 s01).getD 0) ((from_str_radix_u8 s23).getD 0)
      ((from_str_radix_u8 s45).getD 0))
  else
    some SkColor.black

/-! ## Painter state (`painter.rs`)

Color strings and font family names are opaque to the painter's state logic
(they are only compared and forwarded), so they are embedded as `Nat`
identifiers. `f32` style scalars are embedded as `ℚ`; the only arithmetic the
painter performs on them is the `0.001` font-size tolerance comparison.
`skia_safe::Font` construction (`create_font`) resolves a typeface through
the global cache and pairs it with a size; as a deterministic function of the
requested family and size it is embedded as the pair itself. Canvas-native
`save`/`restore` calls are recorded by counters. -/

/-- Embeds `Shadow` from `types.rs` (scalar fields as `ℚ`, color as opaque id). -/
structure Shadow where
  color : Nat
  offset_x : ℚ
  offset_y : ℚ
  blur_radius : ℚ
deriving DecidableEq

/-- Embeds `Style` from `types.rs` (colors and family names as opaque ids). -/
structure Style where
  fill_color : Option Nat
  stroke_color : Option Nat
  stroke_width : ℚ
  font_family : Option Nat
  font_size : ℚ
  border_radius : ℚ
  shadow : Option Shadow
deriving DecidableEq

/-- Embeds `Style::default()`: opaque id 0 stands for the `"#000000"` fill string. -/
def Style.default : Style :=
  { fill_color := some 0
    stroke_color := none
    stroke_width := 1
    font_family := none
    font_size := 14
    border_radius := 0
    shadow := none }

/-- A `skia_safe::Font` as `create_font` determines it: the requested family
and size (typeface resolution is deterministic per process). -/
structure PFont where
  family : Option Nat
  size : ℚ
deriving DecidableEq

/-- Embeds `create_font` from `font.rs`, as consumed by the painter. -/
def create_font (family : Option Nat) (size : ℚ) : PFont :=
  ⟨family, size⟩

/-- Embeds `PainterState` from `painter.rs`: the {style, font} snapshot pushed by
`save` and popped by `restore`. -/
structure PainterState where
  style : Style
  font : PFont
deriving DecidableEq

/-- The state of a `SkiaPainter`, instrumented with counters for the
canvas-native `save`/`restore` calls it issues and for the number of
`create_font` constructions it performs. -/
structure Painter where
  current_style : Style
  current_font : PFont
  state_stack : List PainterState
  canvas_saves : Nat
  canvas_restores : Nat
  font_constructions : Nat
deriving DecidableEq

/-- Embeds `SkiaPainter::new`: default style, font from `create_font(None, 14.0)`,
empty state stack. -/
def Painter.init : Painter :=
  { current_style := Style.default
    current_font := create_font none 14
    state_stack := []
    canvas_saves := 0
    canvas_restores := 0
    font_constructions := 0 }

/-- Embeds `SkiaPainter::save`: push one `PainterState` snapshot and issue one
canvas-native save. -/
def Painter.save (p : Painter) : Painter :=
  { p with
    state_stack := ⟨p.current_style, p.current_font⟩ :: p.state_stack
    canvas_saves := p.canvas_saves + 1 }

/-- Embeds `SkiaPainter::restore`: pop one `PainterState` if the stack is non-empty
(restoring style and font), then issue one canvas-native restore
unconditionally. -/
def Painter.restore (p : Painter) : Painter :=
  match p.state_stack with
  | st :: rest =>
    { p with
      current_style := st.style
      current_font := st.font
      state_stack := rest
      canvas_restores := p.canvas_restores + 1 }
  | [] => { p with canvas_restores := p.canvas_restores + 1 }

/-- The `font_changed` test of `SkiaPainter::set_style`:
`style.font_family != current.font_family ||
 (style.font_size - current.font_size).abs() > 0.001`. -/
def font_changed (cur new : Style) : Bool :=
  decide (new.font_family ≠ cur.font_family) ||
  decide (|new.font_size - cur.font_size| > 1 / 1000)

/-- Embeds `SkiaPainter::set_style`: always replace the current style; reconstruct
the current font (via `create_font`) only when `font_changed`. -/
def Painter.set_style (p : Painter) (style : Style) : Painter :=
  if font_changed p.current_style style then
    { p with
      current_style := style
      current_font := create_font style.font_family style.font_size
      font_constructions := p.font_constructions + 1 }
  else
    { p with current_style := style }

/-! ## Surface and GPU context lifecycle (`surface.rs`)

Skia handles (`DirectContext`, `SkiaSurface`, GL interfaces) are opaque; we
embed them as `Nat`. The fallible engine calls the surface code makes are
oracles collected in `GpuEnv`. Dimensions are `i32`, embedded as `Int`; the
`as usize` cast in `get_rgba_data` is modelled exactly (sign-extension into
`2^64`). The thread-local `GL_CONTEXT` reuse slot is a `ThreadState`,
instrumented with a counter of `DirectContext` constructions. -/

/-- The error cases of `error.rs` reachable from the embedded operations. -/
inductive Err where
  | OpenGLInterfaceError
  | DirectContextError
  | SurfaceCreationError
  | NoDirectContext
  | RasterSurfaceError
  | ReadPixelsError
deriving DecidableEq

/-- Embeds `Surface`: a Skia surface handle, an optional GPU context, and the
declared width/height (`i32`). -/
structure Surface where
  inner : Nat
  context : Option Nat
  width : Int
  height : Int
deriving DecidableEq

/-- Oracles for the external Skia/GL calls made by `surface.rs`:
`new_interface` is the outcome of `Interface::new_native()` (with the Linux
loader fallback), `make_context` of `direct_contexts::make_gl`, `wrap` of
`wrap_backend_render_target` on (context, width, height, sample count,
stencil bits, framebuffer id), `raster_alloc` of `raster_n32_premul`,
`read_pixels_ok` of `Surface::read_pixels` on (surface, width, height), and
`pixel` gives the bytes such a successful readback deposits in the buffer. -/
structure GpuEnv where
  new_interface : Option Nat
  make_context : Nat → Option Nat
  wrap : Nat → Int → Int → Nat → Nat → Nat → Option Nat
  raster_alloc : Int → Int → Option Nat
  read_pixels_ok : Nat → Int → Int → Bool
  pixel : Nat → Nat → Nat

/-- Embeds `Surface::new_raster`: a CPU surface; never touches a GPU context. -/
def new_raster (env : GpuEnv) (width height : Int) : Except Err Surface :=
  match env.raster_alloc width height with
  | none => .error .RasterSurfaceError
  | some inner => .ok ⟨inner, none, width, height⟩

/-- Embeds `Surface::resize` (GL): fail with `NoDirectContext` when the surface has
no context; otherwise wrap a new backend render target with the *same*
context, replacing only the inner surface and the declared dimensions. The
surface is returned unchanged alongside an error. -/
def Surface.resize (env : GpuEnv) (s : Surface) (width height : Int)
    (sample_count stencil_bits : Nat) (framebuffer_id : Nat) :
    Except Err Surface :=
  match s.context with
  | none => .error .NoDirectContext
  | some ctx =>
    match env.wrap ctx width height sample_count stencil_bits framebuffer_id with
    | none => .error .SurfaceCreationError
    | some inner => .ok ⟨inner, some ctx, width, height⟩

/-- The thread-local slot `GL_CONTEXT` plus an instrumentation counter of how
many `DirectContext`s have been constructed on this thread. -/
structure ThreadState where
  slot : Option Nat
  constructions : Nat
deriving DecidableEq

/-- The initial state of a thread: empty slot. -/
def ThreadState.init : ThreadState := ⟨none, 0⟩

/-- Embeds `Surface::from_gl_context`: take the thread-local slot first; if it held a
context, reuse it, otherwise build an interface and a fresh context (counted);
then wrap the backend render target. A context taken from the slot is not put
back on failure (the Rust local is dropped). Returns the result together with
the updated thread state. -/
def from_gl_context (env : GpuEnv) (ts : ThreadState)
    (width height : Int) (sample_count stencil_bits : Nat)
    (framebuffer_id : Nat) : Except Err Surface × ThreadState :=
  let taken := ts.slot
  let ts' : ThreadState := ⟨none, ts.constructions⟩
  match taken with
  | some ctx =>
    match env.wrap ctx width height sample_count stencil_bits framebuffer_id with
    | none => (.error .SurfaceCreationError, ts')
    | some inner => (.ok ⟨inner, some ctx, width, height⟩, ts')
  | none =>
    match env.new_interface with
    | none => (.error .OpenGLInterfaceError, ts')
    | some intf =>
      match env.make_context intf with
      | none => (.error .DirectContextError, ts')
      | some ctx =>
        let ts'' : ThreadState := ⟨none, ts.constructions + 1⟩
        match env.wrap ctx width height sample_count stencil_bits framebuffer_id with
        | none => (.error .SurfaceCreationError, ts'')
        | some inner => (.ok ⟨inner, some ctx, width, height⟩, ts'')

/-- Embeds `impl Drop for Surface` (GL): a live context is stored into the
thread-local slot (overwriting it); a surface without a context leaves the
slot untouched. -/
def drop_surface (ts : ThreadState) (s : Surface) : ThreadState :=
  match s.context with
  | some ctx => ⟨some ctx, ts.constructions⟩
  | none => ts

/-- Number of idle contexts a thread retains. -/
def idle_contexts (ts : ThreadState) : Nat :=
  match ts.slot with
  | some _ => 1
  | none => 0

/-- The states reachable on one thread by any sequence of surface creations
and drops, starting from an empty slot. -/
inductive Reach (env : GpuEnv) : ThreadState → Prop where
  | init : Reach env ThreadState.init
  | create {ts w h sc sb fb} : Reach env ts →
      Reach env (from_gl_context env ts w h sc sb fb).2
  | drop {ts} (s : Surface) : Reach env ts → Reach env (drop_surface ts s)

/-- Rust's `i32 as usize` cast: sign-extend into the 64-bit unsigned range. -/
def usize_of_i32 (n : Int) : Nat :=
  (n % (2 : Int) ^ 64).toNat

/-- Embeds `Surface::get_rgba_data`: allocate a `width*4*height`-byte buffer (with
`as usize` casts), have the engine fill it in place, and return it, or
`ReadPixelsError` when the engine readback reports failure. -/
def get_rgba_data (env : GpuEnv) (s : Surface) : Except Err (List Nat) :=
  let row_bytes := usize_of_i32 s.width * 4
  let total := row_bytes * usize_of_i32 s.height
  if env.read_pixels_ok s.inner s.width s.height then
    .ok ((List.range total).map (env.pixel s.inner))
  else
    .error .ReadPixelsError

/-! ## Image loading and caching (`image.rs`)

File paths are opaque ids (`Nat`); the file system and the Skia decoder are
oracles in `ImgEnv`. A decoded `Image` is its dimensions plus an opaque
handle id. The global cache is an association list (first match wins; insert
prepends, so the last writer wins). -/

/-- A decoded `skia_safe::Image`: dimensions (`i32`) plus an opaque id. -/
structure Img where
  width : Int
  height : Int
  id : Nat
deriving DecidableEq

/-- Image-loading errors from `error.rs`. -/
inductive ImgErr where
  | ImageReadError (path : Nat)
  | ImageDecodeError (path : Nat)
deriving DecidableEq

/-- Oracles for `fs::read` (`none` is an I/O error) and
`Image::from_encoded` (`none` is a decode failure). -/
structure ImgEnv where
  fsRead : Nat → Option (List Nat)
  decode : List Nat → Option Img

/-- The global image cache, keyed by path. -/
def ImageCache := List (Nat × Img)

/-- Cache lookup (`HashMap::get`). -/
def cacheLookup (cache : ImageCache) (path : Nat) : Option Img :=
  match cache with
  | [] => none
  | (p, img) :: rest => if p = path then some img else cacheLookup rest path

/-- Cache insert (`HashMap::insert`, last writer wins). -/
def cacheInsert (cache : ImageCache) (path : Nat) (img : Img) : ImageCache :=
  (path, img) :: cache

/-- Embeds `load_image` from `image.rs`: on `use_cache`, return a cache hit
directly; otherwise read the file, decode it, and (on `use_cache`) insert the
decoded image into the cache. Returns the result with the updated cache. -/
def load_image (env : ImgEnv) (cache : ImageCache) (path : Nat)
    (use_cache : Bool) : Except ImgErr Img × ImageCache :=
  match use_cache, cacheLookup cache path with
  | true, some img => (.ok img, cache)
  | _, _ =>
    match env.fsRead path with
    | none => (.error (.ImageReadError path), cache)
    | some bytes =>
      match env.decode bytes with
      | none => (.error (.ImageDecodeError path), cache)
      | some img =>
        (.ok img, if use_cache then cacheInsert cache path img else cache)

/-- Embeds `measure_image` from `image.rs`: `load_image` plus a dimension read. -/
def measure_image (env : ImgEnv) (cache : ImageCache) (path : Nat)
    (use_cache : Bool) : Except ImgErr (Int × Int) × ImageCache :=
  match load_image env cache path use_cache with
  | (.ok img, cache') => (.ok (img.width, img.height), cache')
  | (.error e, cache') => (.error e, cache')

/-! ## Concrete fixtures (used to instantiate the environment oracles) -/

/-- A concrete GPU oracle on which every engine call succeeds. -/
def glEnv : GpuEnv :=
  { new_interface := some 10
    make_context := fun i => some (i + 1)
    wrap := fun _ _ _ _ _ _ => some 100
    raster_alloc := fun _ _ => some 50
    read_pixels_ok := fun _ _ _ => true
    pixel := fun _ _ => 0 }

/-- A concrete GL-backed surface holding context 11. -/
def glSurface : Surface := ⟨100, some 11, 640, 480⟩

/-- A concrete image oracle: path 1 holds a file decoding to a 3×4 image. -/
def imgEnvT : ImgEnv :=
  { fsRead := fun p => if p = 1 then some [7] else none
    decode := fun bytes => if bytes = [7] then some ⟨3, 4, 9⟩ else none }

/-! ## Lemmas: segmentation -/

theorem addRun_same (e : Bool) (cs ds : List Nat) (l : List (Bool × List Nat)) :
    addRun e cs (addRun e ds l) = addRun e (cs ++ ds) l := by
  cases l with
  | nil => simp [addRun]
  | cons p rs =>
    obtain ⟨e2, r⟩ := p
    by_cases h : e = e2 <;> simp [addRun, h, List.append_assoc]

theorem addRun_diff {e e' : Bool} (h : e ≠ e') (cs ds : List Nat)
    (l : List (Bool × List Nat)) :
    addRun e cs (addRun e' ds l) = (e, cs) :: addRun e' ds l := by
  cases l with
  | nil => simp [addRun, h]
  | cons p rs =>
    obtain ⟨e2, r⟩ := p
    by_cases h2 : e' = e2
    · subst h2
      simp [addRun, h]
    · simp [addRun, h, h2]

theorem runSegments_cons (emojiTf : Option Nat) (defaultTf : Nat)
    (p : Bool × List Nat) (rs : List (Bool × List Nat)) :
    runSegments emojiTf defaultTf (p :: rs) =
      ⟨p.2, run_typeface emojiTf defaultTf p.1⟩ ::
        runSegments emojiTf defaultTf rs := by
  simp [runSegments]

theorem segLoop_eq (emojiTf : Option Nat) (defaultTf : Nat) :
    ∀ (rest cur : List Nat) (curEmoji : Bool), cur ≠ [] →
      segLoop emojiTf defaultTf cur curEmoji rest =
        runSegments emojiTf defaultTf (addRun curEmoji cur (spec_runs rest)) := by
  intro rest
  induction rest with
  | nil =>
    intro cur curEmoji h
    simp [segLoop, spec_runs, addRun, runSegments, List.isEmpty_eq_false.mpr h]
  | cons ch rest ih =>
    intro cur curEmoji h
    by_cases he : is_likely_emoji ch = curEmoji
    · have hcond : (is_likely_emoji ch != curEmoji && !cur.isEmpty) = false := by
        simp [he]
      rw [segLoop, if_neg (by simp [hcond])]
      rw [ih (cur ++ [ch]) (is_likely_emoji ch) (by simp)]
      rw [spec_runs, ← he, addRun_same]
    · have hcond : (is_likely_emoji ch != curEmoji && !cur.isEmpty) = true := by
        simp [he, List.isEmpty_eq_false.mpr h]
      rw [segLoop, if_pos hcond]
      rw [ih [ch] (is_likely_emoji ch) (by simp)]
      rw [spec_runs, addRun_diff (fun hc => he hc.symm), runSegments_cons]

theorem spec_runs_no_emoji :
    ∀ (text : List Nat), text ≠ [] →
      (∀ c ∈ text, is_likely_emoji c = false) →
      spec_runs text = [(false, text)] := by
  intro text
  induction text with
  | nil => intro h; exact absurd rfl h
  | cons c rest ih =>
    intro _ hall
    cases rest with
    | nil =>
      simp [spec_runs, addRun, hall c (by simp)]
    | cons c2 rest2 =>
      rw [spec_runs, ih (by simp) (fun x hx => hall x (List.mem_cons_of_mem c hx)),
        hall c (by simp)]
      simp [addRun]

/-- The central refinement: `segment_text_by_font` always produces exactly the
maximal-run decomposition tagged by `run_typeface`, with the default typeface
resolved as `primary.getD legacyTf`. -/
theorem segment_eq_spec (text : List Nat) (primary emojiTf : Option Nat)
    (legacyTf : Nat) :
    segment_text_by_font text primary emojiTf legacyTf =
      slow_path_spec emojiTf (primary.getD legacyTf) text := by
  cases text with
  | nil => simp [segment_text_by_font, slow_path_spec, spec_runs, runSegments]
  | cons ch rest =>
    by_cases hc : contains_emoji (ch :: rest) = true
    · rw [segment_text_by_font, if_neg (by simp), if_neg (by simp [hc])]
      have hstep : segLoop emojiTf (primary.getD legacyTf) [] false (ch :: rest) =
          segLoop emojiTf (primary.getD legacyTf) [ch] (is_likely_emoji ch) rest := by
        rw [segLoop]
        simp
      rw [hstep, segLoop_eq emojiTf (primary.getD legacyTf) rest [ch]
        (is_likely_emoji ch) (by simp)]
      rw [slow_path_spec, spec_runs]
    · have hc' : contains_emoji (ch :: rest) = false := by
        simpa using hc
      have hall : ∀ c ∈ ch :: rest, is_likely_emoji c = false := by
        simpa [contains_emoji] using hc'
      rw [segment_text_by_font, if_neg (by simp), if_pos (by simp [hc'])]
      rw [slow_path_spec, spec_runs_no_emoji (ch :: rest) (by simp) hall]
      simp [runSegments, run_typeface]

theorem addRun_join (e : Bool) (cs : List Nat) (l : List (Bool × List Nat)) :
    ((addRun e cs l).map Prod.snd).flatten = cs ++ (l.map Prod.snd).flatten := by
  cases l with
  | nil => simp [addRun]
  | cons p rs =>
    obtain ⟨e2, r⟩ := p
    by_cases h : e = e2 <;> simp [addRun, h, List.append_assoc]

theorem spec_runs_join (text : List Nat) :
    ((spec_runs text).map Prod.snd).flatten = text := by
  induction text with
  | nil => simp [spec_runs]
  | cons c rest ih => rw [spec_runs, addRun_join]; simp [ih]

theorem addRun_mem_ne_nil {e : Bool} {cs : List Nat}
    {l : List (Bool × List Nat)} (hcs : cs ≠ [])
    (hl : ∀ q ∈ l, q.2 ≠ []) :
    ∀ p ∈ addRun e cs l, p.2 ≠ [] := by
  cases l with
  | nil =>
    intro p hp
    simp [addRun] at hp
    simp [hp, hcs]
  | cons q rs =>
    obtain ⟨e2, r⟩ := q
    by_cases h : e = e2
    · intro p hp
      simp [addRun, h] at hp
      rcases hp with hp | hp
      · simp [hp, hcs]
      · exact hl p (by simp [hp])
    · intro p hp
      simp [addRun, h] at hp
      rcases hp with hp | hp | hp
      · simp [hp, hcs]
      · exact hl p (by simp [hp])
      · exact hl p (by simp [hp])

theorem spec_runs_ne_nil (text : List Nat) :
    ∀ p ∈ spec_runs text, p.2 ≠ [] := by
  induction text with
  | nil => simp [spec_runs]
  | cons c rest ih =>
    rw [spec_runs]
    exact addRun_mem_ne_nil (by simp) ih

theorem runSegments_texts (emojiTf : Option Nat) (defaultTf : Nat)
    (runs : List (Bool × List Nat)) :
    (runSegments emojiTf defaultTf runs).map TextSegment.text =
      runs.map Prod.snd := by
  simp [runSegments, List.map_map]

/-! ## Claim theorems: segmentation -/

/-- C1: `segment_text_by_font` returns zero segments on empty text; exactly
one segment carrying the whole input and the primary (or default) typeface
when the text holds no emoji code point; and exactly the three segments
"a", "😀", "b" for the input "a😀b". -/
theorem C1_segmentation_cases (primary emojiTf : Option Nat) (legacyTf : Nat) :
    segment_text_by_font [] primary emojiTf legacyTf = [] ∧
    (∀ text, text ≠ [] → contains_emoji text = false →
      segment_text_by_font text primary emojiTf legacyTf =
        [⟨text, primary.getD legacyTf⟩]) ∧
    (segment_text_by_font [97, 0x1F600, 98] primary emojiTf legacyTf).map
      TextSegment.text = [[97], [0x1F600], [98]] := by
  refine ⟨rfl, ?_, ?_⟩
  · intro text ht hc
    cases text with
    | nil => exact absurd rfl ht
    | cons c rest =>
      rw [segment_text_by_font, if_neg (by simp), if_pos (by simp [hc])]
  · rw [segment_eq_spec, slow_path_spec,
      show spec_runs [97, 0x1F600, 98] =
        [(false, [97]), (true, [0x1F600]), (false, [98])] from rfl,
      runSegments_texts]
    simp

/-- C1 witness: the three cases at concrete inputs. -/
theorem C1_witness :
    segment_text_by_font [] (some 1) (some 2) 0 = [] ∧
    segment_text_by_font [99] (some 1) (some 2) 0 = [⟨[99], 1⟩] ∧
    (segment_text_by_font [97, 0x1F600, 98] (some 1) (some 2) 0).map
      TextSegment.text = [[97], [0x1F600], [98]] := by
  obtain ⟨h1, h2, h3⟩ := C1_segmentation_cases (some 1) (some 2) 0
  exact ⟨h1, h2 [99] (by decide) (by decide), h3⟩

/-- C2: on the slow path (the text contains an emoji code point), the
segments are exactly the maximal runs of constant emoji-classification in
order, emoji runs tagged with the cached emoji typeface (falling back to the
default/primary typeface), non-emoji runs tagged with the default/primary
typeface. -/
theorem C2_slow_path_runs (text : List Nat) (primary emojiTf : Option Nat)
    (legacyTf : Nat) (h : contains_emoji text = true) :
    segment_text_by_font text primary emojiTf legacyTf =
      slow_path_spec emojiTf (primary.getD legacyTf) text :=
  segment_eq_spec text primary emojiTf legacyTf

/-- C2 witness: the slow-path refinement at a concrete emoji input. -/
theorem C2_witness :
    contains_emoji [97, 0x1F600, 98] = true ∧
    segment_text_by_font [97, 0x1F600, 98] (some 1) (some 2) 0 =
      slow_path_spec (some 2) 1 [97, 0x1F600, 98] :=
  ⟨by decide, C2_slow_path_runs [97, 0x1F600, 98] (some 1) (some 2) 0 (by decide)⟩

/-- C10: for non-empty text, the returned segments concatenate in order to
exactly the input, and no returned segment is empty. -/
theorem C10_segments_partition (text : List Nat) (primary emojiTf : Option Nat)
    (legacyTf : Nat) (h : text ≠ []) :
    ((segment_text_by_font text primary emojiTf legacyTf).map
      TextSegment.text).flatten = text ∧
    ∀ seg ∈ segment_text_by_font text primary emojiTf legacyTf,
      seg.text ≠ [] := by
  rw [segment_eq_spec, slow_path_spec]
  constructor
  · rw [runSegments_texts, spec_runs_join]
  · intro seg hseg
    obtain ⟨p, hmem, rfl⟩ := List.mem_map.mp hseg
    exact spec_runs_ne_nil text p hmem

/-- C10 witness: the partition property at a concrete mixed input. -/
theorem C10_witness :
    (([97, 0x1F600, 98] : List Nat) ≠ []) ∧
    ((segment_text_by_font [97, 0x1F600, 98] (some 1) (some 2) 0).map
      TextSegment.text).flatten = [97, 0x1F600, 98] :=
  ⟨by decide,
    (C10_segments_partition [97, 0x1F600, 98] (some 1) (some 2) 0 (by decide)).1⟩

/-! ## Lemmas and claim theorems: color parsing -/

theorem ascii_charBytes {c : Char} (h : c.toNat < 128) : charBytes c = 1 := by
  simp [charBytes]
  omega

/-- C6 counterexample: on the input `"aé1b2"` (whose body is 6 UTF-8 bytes but
whose byte offset 2 falls inside the two-byte character `'é'`), the source
panics on the byte slice `&s[0..2]` (modelled as `none`) instead of producing
any color, while the claim promises black for a body that is neither 6 nor 8
hex digits. -/
theorem C6_counterexample :
    parse_color ['a', 'é', '1', 'b', '2'] = none ∧
    parse_color ['a', 'é', '1', 'b', '2'] ≠ some SkColor.black := by
  decide

/-- C6 (amended): `parse_color` ignores an optional leading `'#'`; a body of
six ASCII characters parses as RGB with alpha 255 and each two-character
component parsed as a `u8` hex value defaulting to 0 when unparseable; a body
of eight ASCII characters parses as RGBA with the alpha taken from the last
two characters (defaulting to 255 when unparseable); a body of any other
UTF-8 byte length yields black. (Bodies of byte length 6 or 8 whose 2-byte
slice offsets fall inside a multi-byte character make the source panic and
are excluded by the ASCII hypotheses.) -/
theorem C6_parse_color_amended :
    (∀ s : List Char, parse_color ('#' :: s) = parse_color s) ∧
    (∀ (s : List Char) (c1 c2 c3 c4 c5 c6 : Char),
      s.dropWhile (· == '#') = [c1, c2, c3, c4, c5, c6] →
      c1.toNat < 128 → c2.toNat < 128 → c3.toNat < 128 →
      c4.toNat < 128 → c5.toNat < 128 → c6.toNat < 128 →
      parse_color s = some (SkColor.from_rgb
        ((from_str_radix_u8 [c1, c2]).getD 0)
        ((from_str_radix_u8 [c3, c4]).getD 0)
        ((from_str_radix_u8 [c5, c6]).getD 0))) ∧
    (∀ (s : List Char) (c1 c2 c3 c4 c5 c6 c7 c8 : Char),
      s.dropWhile (· == '#') = [c1, c2, c3, c4, c5, c6, c7, c8] →
      c1.toNat < 128 → c2.toNat < 128 → c3.toNat < 128 →
      c4.toNat < 128 → c5.toNat < 128 → c6.toNat < 128 →
      c7.toNat < 128 → c8.toNat < 128 →
      parse_color s = some (SkColor.from_argb
        ((from_str_radix_u8 [c7, c8]).getD 255)
        ((from_str_radix_u8 [c1, c2]).getD 0)
        ((from_str_radix_u8 [c3, c4]).getD 0)
        ((from_str_radix_u8 [c5, c6]).getD 0))) ∧
    (∀ s : List Char, utf8Len (s.dropWhile (· == '#')) ≠ 6 →
      utf8Len (s.dropWhile (· == '#')) ≠ 8 →
      parse_color s = some SkColor.black) := by
  refine ⟨?_, ?_, ?_, ?_⟩
  · intro s
    simp [parse_color]
  · intro s c1 c2 c3 c4 c5 c6 hbody h1 h2 h3 h4 h5 h6
    have e1 := ascii_charBytes h1
    have e2 := ascii_charBytes h2
    have e3 := ascii_charBytes h3
    have e4 := ascii_charBytes h4
    have e5 := ascii_charBytes h5
    have e6 := ascii_charBytes h6
    simp [parse_color, hbody, utf8Len, byteSlice, byteDrop, byteTake,
      e1, e2, e3, e4, e5, e6]
  · intro s c1 c2 c3 c4 c5 c6 c7 c8 hbody h1 h2 h3 h4 h5 h6 h7 h8
    have e1 := ascii_charBytes h1
    have e2 := ascii_charBytes h2
    have e3 := ascii_charBytes h3
    have e4 := ascii_charBytes h4
    have e5 := ascii_charBytes h5
    have e6 := ascii_charBytes h6
    have e7 := ascii_charBytes h7
    have e8 := ascii_charBytes h8
    simp [parse_color, hbody, utf8Len, byteSlice, byteDrop, byteTake,
      e1, e2, e3, e4, e5, e6, e7, e8]
  · intro s hne6 hne8
    simp [parse_color, hne6, hne8]

/-- C6 witness: the amended behaviour at concrete inputs `"#112233"`,
`"112233"`, `"11223344"`, and `"xyz"`. -/
theorem C6_witness :
    parse_color ['#', '1', '1', '2', '2', '3', '3'] =
      parse_color ['1', '1', '2', '2', '3', '3'] ∧
    parse_color ['1', '1', '2', '2', '3', '3'] = some (SkColor.from_rgb
      ((from_str_radix_u8 ['1', '1']).getD 0)
      ((from_str_radix_u8 ['2', '2']).getD 0)
      ((from_str_radix_u8 ['3', '3']).getD 0)) ∧
    parse_color ['1', '1', '2', '2', '3', '3', '4', '4'] = some (SkColor.from_argb
      ((from_str_radix_u8 ['4', '4']).getD 255)
      ((from_str_radix_u8 ['1', '1']).getD 0)
      ((from_str_radix_u8 ['2', '2']).getD 0)
      ((from_str_radix_u8 ['3', '3']).getD 0)) ∧
    parse_color ['x', 'y', 'z'] = some SkColor.black := by
  obtain ⟨hi, hii, hiii, hiv⟩ := C6_parse_color_amended
  exact ⟨hi ['1', '1', '2', '2', '3', '3'],
    hii ['1', '1', '2', '2', '3', '3'] '1' '1' '2' '2' '3' '3' (by decide)
      (by decide) (by decide) (by decide) (by decide) (by decide) (by decide),
    hiii ['1', '1', '2', '2', '3', '3', '4', '4'] '1' '1' '2' '2' '3' '3' '4' '4'
      (by decide) (by decide) (by decide) (by decide) (by decide) (by decide)
      (by decide) (by decide) (by decide),
    hiv ['x', 'y', 'z'] (by decide) (by decide)⟩

/-! ## Lemmas and claim theorems: painter state -/

theorem font_changed_iff (cur new : Style) :
    font_changed cur new = true ↔
      (new.font_family ≠ cur.font_family ∨
        |new.font_size - cur.font_size| > 1 / 1000) := by
  simp [font_changed]

/-- C3: `save(); set_style(S2); restore()` restores the style (and font) held
immediately before `save`, for every painter state and every `S2`; each
`save` pushes exactly one `PainterState` and issues one canvas-native save;
each `restore` on a non-empty stack pops exactly one snapshot and issues one
canvas-native restore; a `restore` on an empty stack leaves style and font
unchanged (still issuing the canvas-native restore). -/
theorem C3_save_set_restore (p : Painter) (S2 : Style) :
    ((p.save.set_style S2).restore.current_style = p.current_style ∧
     (p.save.set_style S2).restore.current_font = p.current_font ∧
     (p.save.set_style S2).restore.state_stack = p.state_stack) ∧
    (p.save.state_stack.length = p.state_stack.length + 1 ∧
     p.save.canvas_saves = p.canvas_saves + 1 ∧
     p.save.canvas_restores = p.canvas_restores) ∧
    (p.state_stack ≠ [] →
      p.restore.state_stack.length = p.state_stack.length - 1 ∧
      p.restore.canvas_restores = p.canvas_restores + 1 ∧
      p.restore.canvas_saves = p.canvas_saves) ∧
    (p.state_stack = [] →
      p.restore.current_style = p.current_style ∧
      p.restore.current_font = p.current_font ∧
      p.restore.state_stack = [] ∧
      p.restore.canvas_restores = p.canvas_restores + 1) := by
  refine ⟨?_, ?_, ?_, ?_⟩
  · by_cases hf : font_changed p.current_style S2 = true <;>
      simp [Painter.save, Painter.set_style, Painter.restore, hf]
  · simp [Painter.save]
  · intro h
    match hs : p.state_stack with
    | [] => exact absurd hs h
    | st :: rest => simp [Painter.restore, hs]
  · intro h
    simp [Painter.restore, h]

/-- C3 witness: the save/set/restore round-trip and the stack-depth facts at
concrete painter states (a fresh painter has an empty stack; after one `save`
the stack is non-empty). -/
theorem C3_witness :
    ((Painter.init.save.set_style
        { Style.default with font_size := 20 }).restore.current_style =
      Painter.init.current_style) ∧
    (Painter.init.save.state_stack.length =
      Painter.init.state_stack.length + 1) ∧
    (Painter.init.save.restore.state_stack.length =
      Painter.init.save.state_stack.length - 1) ∧
    (Painter.init.restore.current_style = Painter.init.current_style) := by
  refine ⟨(C3_save_set_restore Painter.init
      { Style.default with font_size := 20 }).1.1,
    (C3_save_set_restore Painter.init Style.default).2.1.1,
    ((C3_save_set_restore Painter.init.save Style.default).2.2.1
      (by decide)).1,
    ((C3_save_set_restore Painter.init Style.default).2.2.2 rfl).1⟩

theorem set_style_not_changed (p : Painter) (s : Style)
    (hf : font_changed p.current_style s = false) :
    p.set_style s = { p with current_style := s } := by
  simp [Painter.set_style, hf]

/-- C7 counterexample: a `set_style` whose new font size differs from the
current one by 1/2000 (below the 0.001 tolerance of the source) leaves the
current font object untouched and constructs no font, although the font size
actually changed — refuting "re-derives exactly when the font family or the
font size actually changed". -/
theorem C7_counterexample :
    ({ Style.default with font_size := 14 + 1 / 2000 } : Style).font_size ≠
      Painter.init.current_style.font_size ∧
    (Painter.init.set_style
      { Style.default with font_size := 14 + 1 / 2000 }).current_style.font_size ≠
      Painter.init.current_style.font_size ∧
    (Painter.init.set_style
      { Style.default with font_size := 14 + 1 / 2000 }).current_font =
      Painter.init.current_font ∧
    (Painter.init.set_style
      { Style.default with font_size := 14 + 1 / 2000 }).font_constructions =
      Painter.init.font_constructions := by
  have hf : font_changed Painter.init.current_style
      { Style.default with font_size := 14 + 1 / 2000 } = false := by
    rw [Bool.eq_false_iff]
    intro hc
    simp [font_changed, Painter.init, Style.default] at hc
    rw [abs_of_pos (by norm_num)] at hc
    norm_num at hc
  rw [set_style_not_changed Painter.init _ hf]
  exact ⟨by norm_num [Painter.init, Style.default],
    by norm_num [Painter.init, Style.default], rfl, rfl⟩

/-- C7 (amended): `set_style` always replaces the current style, and
re-derives the current font exactly when the font family differs or the font
size differs by more than the source's 0.001 tolerance; otherwise (family
equal and size within tolerance) the current font object is unchanged and no
font is constructed; in particular, consecutive `set_style` calls with equal
family and equal size never reconstruct the font. -/
theorem C7_set_style_amended (p : Painter) (s : Style) :
    ((p.set_style s).current_style = s) ∧
    (s.font_family ≠ p.current_style.font_family ∨
        |s.font_size - p.current_style.font_size| > 1 / 1000 →
      (p.set_style s).current_font = create_font s.font_family s.font_size ∧
      (p.set_style s).font_constructions = p.font_constructions + 1) ∧
    (s.font_family = p.current_style.font_family ∧
        |s.font_size - p.current_style.font_size| ≤ 1 / 1000 →
      (p.set_style s).current_font = p.current_font ∧
      (p.set_style s).font_constructions = p.font_constructions) ∧
    (s.font_family = p.current_style.font_family →
      s.font_size = p.current_style.font_size →
      (p.set_style s).current_font = p.current_font ∧
      (p.set_style s).font_constructions = p.font_constructions) := by
  refine ⟨?_, ?_, ?_, ?_⟩
  · by_cases hf : font_changed p.current_style s <;>
      simp [Painter.set_style, hf]
  · intro h
    have hf : font_changed p.current_style s = true :=
      (font_changed_iff p.current_style s).mpr h
    simp [Painter.set_style, hf]
  · intro h
    have hf : font_changed p.current_style s = false := by
      rw [Bool.eq_false_iff]
      intro hc
      rcases (font_changed_iff p.current_style s).mp hc with hc | hc
      · exact hc h.1
      · exact absurd h.2 (not_le.mpr hc)
    simp [Painter.set_style, hf]
  · intro h1 h2
    have hf : font_changed p.current_style s = false := by
      rw [Bool.eq_false_iff]
      intro hc
      rcases (font_changed_iff p.current_style s).mp hc with hc | hc
      · exact hc h1
      · rw [h2, sub_self, abs_zero] at hc
        exact absurd hc (by norm_num)
    simp [Painter.set_style, hf]

/-- C7 witness: the amended behaviour at concrete styles — a real family/size
change reconstructs the font once, and a same-family same-size `set_style`
leaves the font object alone. -/
theorem C7_witness :
    ((Painter.init.set_style { Style.default with font_size := 20 }).current_font =
        create_font none 20 ∧
      (Painter.init.set_style
        { Style.default with font_size := 20 }).font_constructions = 1) ∧
    ((Painter.init.set_style Style.default).current_font =
        Painter.init.current_font ∧
      (Painter.init.set_style Style.default).font_constructions = 0) := by
  refine ⟨(C7_set_style_amended Painter.init
      { Style.default with font_size := 20 }).2.1
      (by right; norm_num [Painter.init, Style.default]),
    (C7_set_style_amended Painter.init Style.default).2.2.2 rfl rfl⟩

/-! ## Claim theorems: surface, GPU context, readback -/

/-- C4: `resize` fails with `NoDirectContext` exactly when the surface has no
GPU context; raster surfaces never acquire a context, so resizing one always
yields that error; a successful resize keeps the very same context, replaces
the render target, and updates the declared dimensions. -/
theorem C4_resize_contract (env : GpuEnv) (s : Surface) (w h : Int)
    (sc sb fb : Nat) :
    (Surface.resize env s w h sc sb fb = .error .NoDirectContext ↔
      s.context = none) ∧
    (∀ w0 h0 s0, new_raster env w0 h0 = .ok s0 →
      s0.context = none ∧
      Surface.resize env s0 w h sc sb fb = .error .NoDirectContext) ∧
    (∀ s', Surface.resize env s w h sc sb fb = .ok s' →
      s'.context = s.context ∧ s'.width = w ∧ s'.height = h) := by
  refine ⟨?_, ?_, ?_⟩
  · cases hs : s.context with
    | none => simp [Surface.resize, hs]
    | some ctx =>
      cases hw : env.wrap ctx w h sc sb fb <;>
        simp [Surface.resize, hs, hw]
  · intro w0 h0 s0 hok
    cases ha : env.raster_alloc w0 h0 with
    | none => simp [new_raster, ha] at hok
    | some inner =>
      simp [new_raster, ha] at hok
      subst hok
      simp [Surface.resize]
  · intro s' hok
    cases hs : s.context with
    | none => simp [Surface.resize, hs] at hok
    | some ctx =>
      cases hw : env.wrap ctx w h sc sb fb with
      | none => simp [Surface.resize, hs, hw] at hok
      | some inner =>
        simp [Surface.resize, hs, hw] at hok
        subst hok
        simp [hs]

/-- C4 witness: the contract at a concrete GL surface and a concrete raster
surface. -/
theorem C4_witness :
    (Surface.resize glEnv glSurface 800 600 0 8 0 = .error .NoDirectContext ↔
      glSurface.context = none) ∧
    (∀ s', Surface.resize glEnv glSurface 800 600 0 8 0 = .ok s' →
      s'.context = glSurface.context ∧ s'.width = 800 ∧ s'.height = 600) ∧
    (∀ s0, new_raster glEnv 32 32 = .ok s0 →
      Surface.resize glEnv s0 800 600 0 8 0 = .error .NoDirectContext) := by
  refine ⟨(C4_resize_contract glEnv glSurface 800 600 0 8 0).1,
    (C4_resize_contract glEnv glSurface 800 600 0 8 0).2.2,
    fun s0 hs0 =>
      ((C4_resize_contract glEnv glSurface 800 600 0 8 0).2.1 32 32 s0 hs0).2⟩

/-- C5: dropping a surface with a live context stores that context in the
thread-local slot (a context-free surface leaves the slot alone); creation
takes the slot first — when it holds a context no new context is constructed
and a successful creation reuses exactly that context, while with an empty
slot a successful creation constructs exactly one; and every reachable thread
state retains at most one idle context. -/
theorem C5_context_slot (env : GpuEnv) :
    (∀ ts (s : Surface) ctx, s.context = some ctx →
      (drop_surface ts s).slot = some ctx) ∧
    (∀ ts (s : Surface), s.context = none → drop_surface ts s = ts) ∧
    (∀ ts w h sc sb fb ctx, ts.slot = some ctx →
      (from_gl_context env ts w h sc sb fb).2.slot = none ∧
      (from_gl_context env ts w h sc sb fb).2.constructions = ts.constructions ∧
      (∀ s, (from_gl_context env ts w h sc sb fb).1 = .ok s →
        s.context = some ctx)) ∧
    (∀ ts w h sc sb fb s, ts.slot = none →
      (from_gl_context env ts w h sc sb fb).1 = .ok s →
      (from_gl_context env ts w h sc sb fb).2.constructions =
        ts.constructions + 1) ∧
    (∀ ts, Reach env ts → idle_contexts ts ≤ 1) := by
  refine ⟨?_, ?_, ?_, ?_, ?_⟩
  · intro ts s ctx hs
    simp [drop_surface, hs]
  · intro ts s hs
    simp [drop_surface, hs]
  · intro ts w h sc sb fb ctx hts
    cases hw : env.wrap ctx w h sc sb fb <;>
      simp [from_gl_context, hts, hw]
  · intro ts w h sc sb fb s hts hok
    cases hi : env.new_interface with
    | none => simp [from_gl_context, hts, hi] at hok
    | some intf =>
      cases hc : env.make_context intf with
      | none => simp [from_gl_context, hts, hi, hc] at hok
      | some ctx =>
        cases hw : env.wrap ctx w h sc sb fb with
        | none => simp [from_gl_context, hts, hi, hc, hw] at hok
        | some inner => simp [from_gl_context, hts, hi, hc, hw]
  · intro ts _
    cases hts : ts.slot <;> simp [idle_contexts, hts]

/-- C5 witness: the slot behaviour at concrete states — a drop stores context
11, a creation from a full slot reuses it without constructing, a creation
from an empty slot constructs once, and the initial state is reachable with
at most one idle context. -/
theorem C5_witness :
    (drop_surface ThreadState.init glSurface).slot = some 11 ∧
    (from_gl_context glEnv ⟨some 11, 0⟩ 640 480 0 8 0).2.slot = none ∧
    (from_gl_context glEnv ⟨some 11, 0⟩ 640 480 0 8 0).2.constructions = 0 ∧
    (from_gl_context glEnv ThreadState.init 640 480 0 8 0).2.constructions = 1 ∧
    idle_contexts ThreadState.init ≤ 1 := by
  obtain ⟨h1, _, h3, h4, h5⟩ := C5_context_slot glEnv
  refine ⟨h1 ThreadState.init glSurface 11 rfl,
    (h3 ⟨some 11, 0⟩ 640 480 0 8 0 11 rfl).1,
    (h3 ⟨some 11, 0⟩ 640 480 0 8 0 11 rfl).2.1,
    h4 ThreadState.init 640 480 0 8 0 ⟨100, some 11, 640, 480⟩ rfl rfl,
    h5 ThreadState.init Reach.init⟩

theorem usize_of_i32_eq_toNat {n : Int} (h0 : 0 ≤ n) (h1 : n < 2 ^ 31) :
    usize_of_i32 n = n.toNat := by
  rw [usize_of_i32, Int.emod_eq_of_lt h0 (by omega)]

theorem rgba_length (env : GpuEnv) (s : Surface) (buf : List Nat)
    (hw0 : 0 ≤ s.width) (hw1 : s.width < 2 ^ 31)
    (hh0 : 0 ≤ s.height) (hh1 : s.height < 2 ^ 31)
    (hok : get_rgba_data env s = .ok buf) :
    buf.length = s.width.toNat * s.height.toNat * 4 := by
  rw [get_rgba_data] at hok
  cases hr : env.read_pixels_ok s.inner s.width s.height with
  | false => simp [hr] at hok
  | true =>
    simp [hr] at hok
    subst hok
    simp [usize_of_i32_eq_toNat hw0 hw1, usize_of_i32_eq_toNat hh0 hh1]
    ring

/-- C8: a successful `get_rgba_data` on a surface with declared dimensions
`w × h` (in the `i32` range) returns a buffer of exactly `w*h*4` bytes
(row-major, stride `w*4` by construction); after a successful resize the
readback size reflects the new dimensions. -/
theorem C8_rgba_buffer_size (env : GpuEnv) (s : Surface) :
    (∀ buf, 0 ≤ s.width → s.width < 2 ^ 31 →
      0 ≤ s.height → s.height < 2 ^ 31 →
      get_rgba_data env s = .ok buf →
      buf.length = s.width.toNat * s.height.toNat * 4) ∧
    (∀ w h sc sb fb s' buf, 0 ≤ w → w < 2 ^ 31 → 0 ≤ h → h < 2 ^ 31 →
      Surface.resize env s w h sc sb fb = .ok s' →
      get_rgba_data env s' = .ok buf →
      buf.length = w.toNat * h.toNat * 4) := by
  refine ⟨fun buf hw0 hw1 hh0 hh1 hok =>
    rgba_length env s buf hw0 hw1 hh0 hh1 hok, ?_⟩
  intro w h sc sb fb s' buf hw0 hw1 hh0 hh1 hrs hok
  cases hs : s.context with
  | none => simp [Surface.resize, hs] at hrs
  | some ctx =>
    cases hwr : env.wrap ctx w h sc sb fb with
    | none => simp [Surface.resize, hs, hwr] at hrs
    | some inner =>
      simp [Surface.resize, hs, hwr] at hrs
      subst hrs
      exact rgba_length env _ buf hw0 hw1 hh0 hh1 hok

/-- C8 witness: readback sizes at the concrete GL surface (640×480) and after
a concrete resize to 800×600. -/
theorem C8_witness :
    (∀ buf, get_rgba_data glEnv glSurface = .ok buf →
      buf.length = 640 * 480 * 4) ∧
    (∀ s' buf, Surface.resize glEnv glSurface 800 600 0 8 0 = .ok s' →
      get_rgba_data glEnv s' = .ok buf → buf.length = 800 * 600 * 4) := by
  refine ⟨fun buf hok => (C8_rgba_buffer_size glEnv glSurface).1 buf
      (by decide) (by decide) (by decide) (by decide) hok,
    fun s' buf hrs hok => (C8_rgba_buffer_size glEnv glSurface).2 800 600 0 8 0
      s' buf (by decide) (by decide) (by decide) (by decide) hrs hok⟩

/-! ## Lemmas and claim theorems: image loading -/

theorem cacheLookup_insert (cache : ImageCache) (path : Nat) (img : Img) :
    cacheLookup (cacheInsert cache path img) path = some img := by
  simp [cacheInsert, cacheLookup]

theorem load_image_true_lookup (env : ImgEnv) (cache : ImageCache)
    (path : Nat) (img : Img) (c' : ImageCache)
    (h : load_image env cache path true = (.ok img, c')) :
    cacheLookup c' path = some img := by
  cases hl : cacheLookup cache path with
  | some cached =>
    simp [load_image, hl] at h
    obtain ⟨h1, h2⟩ := h
    subst h1
    subst h2
    exact hl
  | none =>
    cases hf : env.fsRead path with
    | none => simp [load_image, hl, hf] at h
    | some bytes =>
      cases hd : env.decode bytes with
      | none => simp [load_image, hl, hf, hd] at h
      | some dimg =>
        simp [load_image, hl, hf, hd] at h
        obtain ⟨h1, h2⟩ := h
        subst h1
        subst h2
        exact cacheLookup_insert cache path _

/-- C9: `measure_image` performs exactly the `load_image` of its arguments —
it succeeds if and only if the load succeeds, returns precisely that image's
(width, height), fails with precisely the load's error, and leaves the cache
exactly as the load does; moreover two consecutive cached loads of the same
path return the same image (hence identical dimensions) and the second leaves
the cache unchanged. -/
theorem C9_measure_is_load (env : ImgEnv) (cache : ImageCache) (path : Nat)
    (uc : Bool) :
    ((measure_image env cache path uc).2 = (load_image env cache path uc).2) ∧
    (∀ img, (load_image env cache path uc).1 = .ok img →
      (measure_image env cache path uc).1 = .ok (img.width, img.height)) ∧
    (∀ e, (load_image env cache path uc).1 = .error e →
      (measure_image env cache path uc).1 = .error e) ∧
    (∀ c' img, load_image env cache path true = (.ok img, c') →
      load_image env c' path true = (.ok img, c')) := by
  refine ⟨?_, ?_, ?_, ?_⟩
  · rcases hload : load_image env cache path uc with ⟨res, c'⟩
    cases res <;> simp [measure_image, hload]
  · intro img himg
    rcases hload : load_image env cache path uc with ⟨res, c'⟩
    rw [hload] at himg
    simp at himg
    subst himg
    simp [measure_image, hload]
  · intro e he
    rcases hload : load_image env cache path uc with ⟨res, c'⟩
    rw [hload] at he
    simp at he
    subst he
    simp [measure_image, hload]
  · intro c' img h
    have hmem := load_image_true_lookup env cache path img c' h
    simp [load_image, hmem]

/-- C9 witness: at the concrete image environment, measuring path 1 through
an empty cache returns the 3×4 dimensions of the image the load returns, a
missing path propagates the load's read error, and a second cached load
returns the identical image. -/
theorem C9_witness :
    (measure_image imgEnvT [] 1 true).1 = .ok ((3 : Int), (4 : Int)) ∧
    (measure_image imgEnvT [] 2 true).1 = .error (.ImageReadError 2) ∧
    load_image imgEnvT [(1, ⟨3, 4, 9⟩)] 1 true = (.ok ⟨3, 4, 9⟩, [(1, ⟨3, 4, 9⟩)]) := by
  obtain ⟨_, h2, h3, h4⟩ := C9_measure_is_load imgEnvT [] 1 true
  obtain ⟨_, _, h3b, _⟩ := C9_measure_is_load imgEnvT [] 2 true
  refine ⟨h2 ⟨3, 4, 9⟩ rfl, h3b (.ImageReadError 2) rfl, ?_⟩
  exact h4 [(1, ⟨3, 4, 9⟩)] ⟨3, 4, 9⟩ rfl

end Castella
